import Mathlib

/-!
# Verification of the Workspace Navigator plugin core

Shallow embedding of the workspace persistence / layout-restoration manager
of the `obsidian-workspace-navigator` repository, and proofs of the spec's
claims about it.

The embedding follows the latest revision present in the source:
* `src/workspace-manager.ts`, the standalone `WorkspaceManager` class
  (the logger-instrumented revision, which wraps the external
  `changeLayout` call in an inner try/catch and explicitly clears the
  folder-state store when a workspace has no saved snapshot);
* `src/main.ts` (`WorkspaceNavigator`): `saveNavigationLayout`,
  `restoreNavigationLayout`, and the save-current-workspace command;
* the switcher modal's `getItems` (sorting gated by the
  `sortWorkspacesAlphabetically` setting);
* `src/settings.ts` (`WorkspaceNavigatorSettings`).

Opaque JavaScript values are modelled as follows: the layout blob produced
by the external layout engine is an opaque `Nat` (the manager only stores
and forwards it verbatim); the folder-expansion state is an optional list
of folder paths (`Option (List String)`; `none` models JS `null`/
`undefined`, which are exactly the falsy values this field can take, since
arrays — even empty ones — are truthy in JS); JS objects used as string
maps (`Record<string, WorkspaceData>`) are association lists in key
insertion order, which is the enumeration order `Object.keys` gives for
non-numeric string keys.

External effects (writes to the folder-state store via
`app.saveLocalStorage`, the layout-apply call `app.workspace.changeLayout`,
`Notice` popups, `trigger` events, the `console.warn` in the inner catch of
`loadWorkspace`) are recorded in an event trace, in program order; each
trace entry stands for an `await`-ed call that has completed before the
next entry begins.  Development-logger chatter (`logger.log` lines) is not
traced.  The file-explorer tree refresh inside `loadWorkspace` mutates only
the external file-explorer UI, never the store or the trace events the
claims are about, and is omitted.
-/

/-- Model of JS `String.prototype.trim`: strip whitespace from both ends.
(`String.trim` from core is extern-implemented and does not reduce in the
kernel, so the blank-name checks use this char-list model instead.) -/
def jsTrim (s : String) : String :=
  ⟨((s.data.dropWhile Char.isWhitespace).reverse.dropWhile Char.isWhitespace).reverse⟩

/-- TS `WorkspaceData` (src/workspace-manager.ts): one saved workspace. -/
structure WorkspaceData where
  /-- The workspace layout blob (opaque to the manager). -/
  layout : Nat
  /-- Timestamp when the workspace was last saved (`Date.now()`). -/
  lastSaved : Nat
  /-- Folder expansion state from the file explorer; `none` models
  JS `undefined`/`null`. -/
  folderExpandState : Option (List String)
  deriving Repr, DecidableEq

/-- TS `WorkspacesStorage` (src/workspace-manager.ts): storage for all
workspaces.  The `workspaces` record is an association list in key
insertion order. -/
structure WorkspacesStorage where
  workspaces : List (String × WorkspaceData)
  activeWorkspace : Option String
  version : String
  deriving Repr, DecidableEq

/-- JS `this.storage.workspaces[name]` read (with `|| null` as in
`getWorkspace`): first binding of the key, if any. -/
def lookupWs (s : WorkspacesStorage) (name : String) : Option WorkspaceData :=
  s.workspaces.lookup name

/-- TS `hasWorkspace` (src/workspace-manager.ts): `name in this.storage.workspaces`. -/
def hasWorkspace (s : WorkspacesStorage) (name : String) : Bool :=
  (lookupWs s name).isSome

/-- TS `getWorkspace` (src/workspace-manager.ts):
`this.storage.workspaces[name] || null`. -/
def getWorkspace (s : WorkspacesStorage) (name : String) : Option WorkspaceData :=
  lookupWs s name

/-- JS object write `obj[k] = v`: update in place if the key exists
(keeping its position in insertion order), else append at the end. -/
def setKey (m : List (String × WorkspaceData)) (k : String) (v : WorkspaceData) :
    List (String × WorkspaceData) :=
  if m.any (fun p => p.1 == k) then
    m.map (fun p => if p.1 = k then (k, v) else p)
  else
    m ++ [(k, v)]

/-- JS `delete obj[k]`: remove the key's binding. -/
def delKey (m : List (String × WorkspaceData)) (k : String) :
    List (String × WorkspaceData) :=
  m.filter (fun p => decide (p.1 ≠ k))

/-- External effects of the manager's operations, in program order. -/
inductive ExtEvent where
  /-- TS `await this.app.saveLocalStorage('file-explorer-unfold', v)`;
  `writeFolderState none` is the explicit clear (`null` payload). -/
  | writeFolderState (v : Option (List String))
  /-- TS `await this.app.workspace.changeLayout(blob)` begins. -/
  | applyLayout (blob : Nat)
  /-- TS `console.warn('[WorkspaceManager] Error during layout change', …)` in
  the inner catch of `loadWorkspace` (the error is logged, then swallowed). -/
  | warnLayoutError
  /-- TS `new Notice('Workspace "<name>" not found')`. -/
  | noticeNotFound (name : String)
  /-- TS `new Notice('Workspace "<name>" already exists')`. -/
  | noticeAlreadyExists (name : String)
  /-- TS `new Notice('Workspace name cannot be empty')`. -/
  | noticeEmptyName
  /-- TS `this.app.workspace.trigger('workspace-open', name)`. -/
  | triggerOpen (name : String)
  /-- TS `this.app.workspace.trigger('workspace-delete', name)`. -/
  | triggerDelete (name : String)
  /-- TS `this.app.workspace.trigger('workspace-rename', newName, oldName)`. -/
  | triggerRename (newName oldName : String)
  deriving Repr, DecidableEq

/-- Whether an event is a user-facing error `Notice`. -/
def ExtEvent.isNotice : ExtEvent → Bool
  | .noticeNotFound _ => true
  | .noticeAlreadyExists _ => true
  | .noticeEmptyName => true
  | _ => false

/-- Outcome of `loadWorkspace` for its caller: `ok` is an ordinary return
(success), `notFound` is the early return after the not-found notice,
`raised` would be an exception propagating out of the outer try/catch (in
this revision nothing reaches it: the only throwing external call,
`changeLayout`, is wrapped in an inner catch that swallows the error). -/
inductive LoadResult where
  | ok
  | notFound
  | raised
  deriving Repr, DecidableEq

/-- Return value of `loadWorkspace`. -/
structure LoadOut where
  storage : WorkspacesStorage
  events : List ExtEvent
  result : LoadResult
  deriving Repr, DecidableEq

/-- TS `loadWorkspace` (src/workspace-manager.ts, logger revision).
`applyLayoutFails` says whether the external `changeLayout` call throws
(e.g. a third-party plugin error during layout teardown/rebuild). -/
def loadWorkspace (s : WorkspacesStorage) (name : String)
    (restoreFolderState : Bool) (applyLayoutFails : Bool) : LoadOut :=
  match getWorkspace s name with
  | none => { storage := s, events := [.noticeNotFound name], result := .notFound }
  | some ws =>
    -- Restore folder expansion state BEFORE changing layout
    let folderEvents : List ExtEvent :=
      if restoreFolderState then
        match ws.folderExpandState with
        | some fs => [.writeFolderState (some fs)]
        | none => [.writeFolderState none]   -- clear: workspace has no saved state
      else []
    -- changeLayout is wrapped in an inner try/catch: on error, log and continue
    let applyEvents : List ExtEvent :=
      .applyLayout ws.layout :: (if applyLayoutFails then [.warnLayoutError] else [])
    { storage := { s with activeWorkspace := some name }
      events := folderEvents ++ applyEvents ++ [.triggerOpen name]
      result := .ok }

/-- External inputs consumed by one `saveWorkspace` call. -/
structure SaveEnv where
  /-- TS `this.app.workspace.getLayout()`. -/
  currentLayout : Nat
  /-- TS `Date.now()`. -/
  now : Nat
  /-- TS `await this.app.loadLocalStorage('file-explorer-unfold')`. -/
  localFolder : Option (List String)
  /-- Whether the file-explorer internal plugin is enabled (with a tree). -/
  fileExplorerEnabled : Bool
  /-- Expanded folder paths extractable from the file-explorer tree. -/
  treeExpanded : List String
  deriving Repr, DecidableEq

/-- The folder-state capture slice of `saveWorkspace`: the localStorage
value if non-null, otherwise (when the file explorer is enabled) the paths
extracted from its tree if that list is non-empty, otherwise nothing. -/
def capturedFolderState (saveFolderState : Bool) (env : SaveEnv) :
    Option (List String) :=
  if saveFolderState then
    match env.localFolder with
    | some v => some v
    | none =>
      if env.fileExplorerEnabled && !(env.treeExpanded.isEmpty) then
        some env.treeExpanded
      else none
  else none

/-- TS `saveWorkspace` (src/workspace-manager.ts, logger revision): rejects a
blank name, else overwrites the record wholesale and marks it active. -/
def saveWorkspace (s : WorkspacesStorage) (name : String)
    (saveFolderState : Bool) (env : SaveEnv) :
    WorkspacesStorage × List ExtEvent :=
  if jsTrim name == "" then   -- `!name || name.trim() === ''`
    (s, [.noticeEmptyName])
  else
    let data : WorkspaceData :=
      { layout := env.currentLayout
        lastSaved := env.now
        folderExpandState := capturedFolderState saveFolderState env }
    ({ s with workspaces := setKey s.workspaces name data
              activeWorkspace := some name }, [])

/-- TS `deleteWorkspace` (src/workspace-manager.ts). -/
def deleteWorkspace (s : WorkspacesStorage) (name : String) :
    WorkspacesStorage × List ExtEvent :=
  if !hasWorkspace s name then
    (s, [.noticeNotFound name])
  else
    ({ s with workspaces := delKey s.workspaces name
              activeWorkspace :=
                if s.activeWorkspace = some name then none
                else s.activeWorkspace },
     [.triggerDelete name])

/-- TS `renameWorkspace` (src/workspace-manager.ts): checks, then
`workspaces[newName] = workspaces[oldName]; delete workspaces[oldName]`. -/
def renameWorkspace (s : WorkspacesStorage) (oldName newName : String) :
    WorkspacesStorage × List ExtEvent :=
  match lookupWs s oldName with
  | none => (s, [.noticeNotFound oldName])
  | some r =>
    if hasWorkspace s newName then
      (s, [.noticeAlreadyExists newName])
    else if jsTrim newName == "" then
      (s, [.noticeEmptyName])
    else
      ({ s with workspaces := delKey (setKey s.workspaces newName r) oldName
                activeWorkspace :=
                  if s.activeWorkspace = some oldName then some newName
                  else s.activeWorkspace },
       [.triggerRename newName oldName])

/-- TS `setActiveWorkspace` (src/workspace-manager.ts): set only if the name
has a record. -/
def setActiveWorkspace (s : WorkspacesStorage) (name : String) :
    WorkspacesStorage :=
  if hasWorkspace s name then { s with activeWorkspace := some name } else s

/-- TS `getActiveWorkspace` (src/workspace-manager.ts). -/
def getActiveWorkspace (s : WorkspacesStorage) : Option String :=
  s.activeWorkspace

/-- The store invariant of claim C10, as a decidable check: the active
pointer is `none` or the key of an existing record. -/
def activeValid (s : WorkspacesStorage) : Bool :=
  match s.activeWorkspace with
  | none => true
  | some n => hasWorkspace s n

/-!
## Natural Name Comparator

`getWorkspaceNames` / `getItems` sort with
`a.localeCompare(b, undefined, { numeric: true, sensitivity: 'base' })`, a
host (ICU) builtin whose code is not part of this repository.
-/

/-- Modelled from the spec: the Natural Name Comparator contract of §4.1
("runs of decimal digits are compared by numeric value rather than by
character code, while non-digit runs compare case-insensitively by code
point"), standing in for the `String.prototype.localeCompare` host builtin
with `numeric: true, sensitivity: 'base'`, whose implementation is external
to the repository.  A name is tokenized into maximal digit runs and
non-digit runs; digit runs carry their numeric value. -/
inductive Chunk where
  | num (val : Nat)
  | txt (chars : List Char)
  deriving Repr, DecidableEq

/-- Tokenizer accumulator: the chunk currently being scanned. -/
inductive TokAcc where
  | start
  | num (v : Nat)
  | txt (revChars : List Char)
  deriving Repr, DecidableEq

/-- Emit the pending chunk at the end of the scan. -/
def flushAcc : TokAcc → List Chunk
  | .start => []
  | .num v => [.num v]
  | .txt r => [.txt r.reverse]

/-- Left-to-right scan splitting a name into maximal digit / non-digit
runs; digit runs accumulate their decimal value. -/
def tokGo : TokAcc → List Char → List Chunk
  | acc, [] => flushAcc acc
  | acc, c :: cs =>
    if c.isDigit then
      match acc with
      | .num v => tokGo (.num (v * 10 + (c.toNat - 48))) cs
      | .txt r => .txt r.reverse :: tokGo (.num (c.toNat - 48)) cs
      | .start => tokGo (.num (c.toNat - 48)) cs
    else
      match acc with
      | .num v => .num v :: tokGo (.txt [c]) cs
      | .txt r => tokGo (.txt (c :: r)) cs
      | .start => tokGo (.txt [c]) cs

/-- Tokenize a workspace name. -/
def tokenize (s : String) : List Chunk := tokGo .start s.data

/-- Case folding for the case-insensitive comparison of non-digit runs. -/
def foldCode (c : Char) : Nat := c.toLower.toNat

/-- Case-insensitive code-point comparison of single characters. -/
def charCICmp (a b : Char) : Ordering := compare (foldCode a) (foldCode b)

/-- Lexicographic comparison of lists by an element comparator (a proper
prefix sorts first). -/
def lexCmp (c : α → α → Ordering) : List α → List α → Ordering
  | [], [] => .eq
  | [], _ :: _ => .lt
  | _ :: _, [] => .gt
  | a :: as, b :: bs => (c a b).then (lexCmp c as bs)

/-- Chunk comparison: numeric runs by value, text runs case-insensitively
by code point; a digit run sorts before a non-digit run (digits precede
letters in code-point order). -/
def chunkCmp : Chunk → Chunk → Ordering
  | .num m, .num n => compare m n
  | .num _, .txt _ => .lt
  | .txt _, .num _ => .gt
  | .txt s, .txt t => lexCmp charCICmp s t

/-- The Natural Name Comparator. -/
def naturalCompare (a b : String) : Ordering :=
  lexCmp chunkCmp (tokenize a) (tokenize b)

/-- The non-strict order induced by the comparator, used as the sort
relation (JS `sort` keeps `a` before `b` when the comparator is ≤ 0). -/
def wsLE (a b : String) : Prop := naturalCompare a b ≠ .gt

instance : DecidableRel wsLE := fun a b =>
  inferInstanceAs (Decidable (naturalCompare a b ≠ .gt))

/-- TS `getWorkspaceNames` (src/workspace-manager.ts):
`Object.keys(this.storage.workspaces).sort(naturalComparator)`.  JS `sort`
is modelled by `insertionSort` (any comparator-respecting sort; the claims
at issue do not depend on tie order between distinct comparator-equal
names). -/
def getWorkspaceNames (s : WorkspacesStorage) : List String :=
  List.insertionSort wsLE (s.workspaces.map (fun p => p.1))

/-- TS `getItems` (workspace-modal, src/unnamed/part_005): all stored names,
run through the natural sort when `sortWorkspacesAlphabetically` is
enabled, otherwise in insertion order. -/
def getItems (sortWorkspacesAlphabetically : Bool) (s : WorkspacesStorage) :
    List String :=
  let workspaces := s.workspaces.map (fun p => p.1)
  if sortWorkspacesAlphabetically then List.insertionSort wsLE workspaces
  else workspaces


/-!
## Plugin layer (src/main.ts, src/settings.ts)

Sidebar navigation state lives outside the workspace records, in the
plugin's `navigationLayouts` map, and is captured/restored by
`saveNavigationLayout` / `restoreNavigationLayout`.
-/

/-- TS `WorkspaceNavigatorSettings` (src/settings.ts). -/
structure WorkspaceNavigatorSettings where
  rememberNavigationLayout : Bool
  maintainLayoutAcrossWorkspaces : Bool
  showStatusBar : Bool
  showInstructions : Bool
  showDeleteConfirmation : Bool
  autoSaveOnSwitch : Bool
  sortWorkspacesAlphabetically : Bool
  debugMode : Bool
  deriving Repr, DecidableEq

/-- TS `DEFAULT_SETTINGS` (src/settings.ts). -/
def DEFAULT_SETTINGS : WorkspaceNavigatorSettings :=
  { rememberNavigationLayout := true
    maintainLayoutAcrossWorkspaces := false
    showStatusBar := true
    showInstructions := true
    showDeleteConfirmation := true
    autoSaveOnSwitch := false
    sortWorkspacesAlphabetically := true
    debugMode := false }

/-- TS `NavigationLayoutState` (src/main.ts): the sidebar slice of a
workspace's state (folder expansion is stored in the workspace record
instead). -/
structure NavigationLayoutState where
  leftSidebarOpen : Bool
  rightSidebarOpen : Bool
  leftSidebarTab : Option String
  rightSidebarTab : Option String
  leftSidebarWidth : Option Nat
  rightSidebarWidth : Option Nat
  deriving Repr, DecidableEq

/-- The two sidebar splits as `restoreNavigationLayout` sees them: for each
split, `none` when the split object is absent, otherwise its `collapsed`
flag. -/
structure SplitPanels where
  left : Option Bool
  right : Option Bool
  deriving Repr, DecidableEq

/-- TS `expand()` / `collapse()` calls issued against the sidebar splits. -/
inductive PanelAction where
  | expandLeft
  | collapseLeft
  | expandRight
  | collapseRight
  deriving Repr, DecidableEq

/-- One side of `restoreNavigationLayout`'s restore block: expand if the
snapshot says open and the split is collapsed, collapse if the snapshot
says closed and the split is expanded, otherwise leave the split alone. -/
def restorePanel (targetOpen : Bool) (expandAct collapseAct : PanelAction)
    (split : Option Bool) : Option Bool × List PanelAction :=
  match split with
  | none => (none, [])
  | some collapsed =>
    if targetOpen && collapsed then (some false, [expandAct])
    else if !targetOpen && !collapsed then (some true, [collapseAct])
    else (some collapsed, [])

/-- TS `restoreNavigationLayout` (src/main.ts / part_000 revision): a no-op if
navigation memory is off or "maintain across workspaces" is on, or if no
snapshot exists for `name`; otherwise each sidebar split is driven to the
snapshot's open/closed state independently. -/
def restoreNavigationLayout (settings : WorkspaceNavigatorSettings)
    (navigationLayouts : List (String × NavigationLayoutState))
    (name : String) (p : SplitPanels) : SplitPanels × List PanelAction :=
  if !settings.rememberNavigationLayout || settings.maintainLayoutAcrossWorkspaces then
    (p, [])
  else
    match navigationLayouts.lookup name with
    | none => (p, [])
    | some layout =>
      let leftRes := restorePanel layout.leftSidebarOpen .expandLeft .collapseLeft p.left
      let rightRes := restorePanel layout.rightSidebarOpen .expandRight .collapseRight p.right
      ({ left := leftRes.1, right := rightRes.1 }, leftRes.2 ++ rightRes.2)

/-- JS `Map.set` on the `navigationLayouts` map. -/
def setNav (m : List (String × NavigationLayoutState)) (k : String)
    (v : NavigationLayoutState) : List (String × NavigationLayoutState) :=
  if m.any (fun p => p.1 == k) then
    m.map (fun p => if p.1 = k then (k, v) else p)
  else
    m ++ [(k, v)]

/-- TS `saveNavigationLayout` (src/main.ts): records the current sidebar
snapshot for `name` only when navigation memory is enabled. -/
def saveNavigationLayout (settings : WorkspaceNavigatorSettings)
    (navigationLayouts : List (String × NavigationLayoutState))
    (name : String) (current : NavigationLayoutState) :
    List (String × NavigationLayoutState) :=
  if !settings.rememberNavigationLayout then navigationLayouts
  else setNav navigationLayouts name current

/-- The save-current-workspace command (part_000 lines 430-434, duplicate
gesture in part_004): `saveNavigationLayout(name)` followed by
`saveWorkspace(name, saveFolderState)` with
`saveFolderState = settings.rememberNavigationLayout`. -/
def saveCurrentWorkspaceCmd (settings : WorkspaceNavigatorSettings)
    (navigationLayouts : List (String × NavigationLayoutState))
    (s : WorkspacesStorage) (name : String) (current : NavigationLayoutState)
    (env : SaveEnv) :
    (List (String × NavigationLayoutState)) × WorkspacesStorage × List ExtEvent :=
  let navigationLayouts := saveNavigationLayout settings navigationLayouts name current
  let saveFolderState := settings.rememberNavigationLayout
  let res := saveWorkspace s name saveFolderState env
  (navigationLayouts, res.1, res.2)

/-!
## Order-theoretic lemmas for the Natural Name Comparator
-/

theorem natCompare_swap (m n : Nat) : (compare m n).swap = compare n m :=
  Batteries.OrientedCmp.symm m n

theorem natCompare_le_trans {x y z : Nat} (h1 : compare x y ≠ Ordering.gt)
    (h2 : compare y z ≠ Ordering.gt) : compare x z ≠ Ordering.gt :=
  Batteries.TransCmp.le_trans h1 h2

theorem lexCmp_swap (c : α → α → Ordering) [Batteries.OrientedCmp c] :
    ∀ x y : List α, (lexCmp c x y).swap = lexCmp c y x
  | [], [] => rfl
  | [], _ :: _ => rfl
  | _ :: _, [] => rfl
  | a :: as, b :: bs => by
    simp only [lexCmp, Ordering.swap_then, Batteries.OrientedCmp.symm a b,
      lexCmp_swap c as bs]

theorem lexCmp_nil_left_ne_gt (c : α → α → Ordering) :
    ∀ z : List α, lexCmp c [] z ≠ .gt
  | [] => by simp [lexCmp]
  | _ :: _ => by simp [lexCmp]

theorem lexCmp_le_trans (c : α → α → Ordering) [Batteries.TransCmp c] :
    ∀ x y z : List α,
      lexCmp c x y ≠ .gt → lexCmp c y z ≠ .gt → lexCmp c x z ≠ .gt
  | [], _, z, _, _ => lexCmp_nil_left_ne_gt c z
  | _ :: _, [], _, h1, _ => absurd rfl h1
  | _ :: _, _ :: _, [], _, h2 => absurd rfl h2
  | a :: as, b :: bs, d :: ds, h1, h2 => by
    simp only [lexCmp, ne_eq, Ordering.then_eq_gt, not_or, not_and] at h1 h2 ⊢
    obtain ⟨hab, hab'⟩ := h1
    obtain ⟨hbd, hbd'⟩ := h2
    refine ⟨Batteries.TransCmp.le_trans hab hbd, fun had => ?_⟩
    cases eab : c a b with
    | gt => exact absurd eab hab
    | eq =>
      have hbdeq : c b d = .eq := by
        rw [← Batteries.TransCmp.cmp_congr_left eab, had]
      exact lexCmp_le_trans c as bs ds (hab' eab) (hbd' hbdeq)
    | lt =>
      -- c a d = .eq and c a b = .lt force c b d = .gt, contradicting hbd
      have : c b d = .gt := by
        rw [Batteries.OrientedCmp.cmp_eq_gt,
          Batteries.TransCmp.cmp_congr_left
            (Batteries.OrientedCmp.cmp_eq_eq_symm.mp had)]
        exact eab
      exact absurd this hbd

instance (c : α → α → Ordering) [Batteries.TransCmp c] :
    Batteries.TransCmp (lexCmp c) where
  symm := lexCmp_swap c
  le_trans {x y z} := lexCmp_le_trans c x y z

instance : Batteries.TransCmp charCICmp where
  symm a b := natCompare_swap (foldCode a) (foldCode b)
  le_trans h1 h2 :=
    natCompare_le_trans h1 h2

theorem chunkCmp_swap : ∀ x y : Chunk, (chunkCmp x y).swap = chunkCmp y x
  | .num _, .num _ =>
    natCompare_swap ..
  | .num _, .txt _ => rfl
  | .txt _, .num _ => rfl
  | .txt s, .txt t => lexCmp_swap charCICmp s t

theorem chunkCmp_le_trans :
    ∀ x y z : Chunk, chunkCmp x y ≠ .gt → chunkCmp y z ≠ .gt → chunkCmp x z ≠ .gt
  | .num _, .num _, .num _, h1, h2 =>
    natCompare_le_trans h1 h2
  | .num _, .num _, .txt _, _, _ => by simp [chunkCmp]
  | .num _, .txt _, .num _, _, h2 => absurd rfl h2
  | .num _, .txt _, .txt _, _, _ => by simp [chunkCmp]
  | .txt _, .num _, _, h1, _ => absurd rfl h1
  | .txt _, .txt _, .num _, _, h2 => absurd rfl h2
  | .txt s, .txt t, .txt u, h1, h2 => lexCmp_le_trans charCICmp s t u h1 h2

instance : Batteries.TransCmp chunkCmp where
  symm := chunkCmp_swap
  le_trans {x y z} := chunkCmp_le_trans x y z

instance : Batteries.TransCmp naturalCompare where
  symm a b := lexCmp_swap chunkCmp (tokenize a) (tokenize b)
  le_trans {a b c} := lexCmp_le_trans chunkCmp (tokenize a) (tokenize b) (tokenize c)

instance : IsTotal String wsLE where
  total a b := by
    cases h : naturalCompare a b with
    | lt => exact Or.inl (by simp [wsLE, h])
    | eq => exact Or.inl (by simp [wsLE, h])
    | gt =>
      refine Or.inr ?_
      have : naturalCompare b a = .lt := Batteries.OrientedCmp.cmp_eq_gt.mp h
      simp [wsLE, this]

instance : IsTrans String wsLE where
  trans _ _ _ h1 h2 := Batteries.TransCmp.le_trans h1 h2

/-!
## Association-list lemmas for the JS object model
-/

theorem lookup_replace_of_mem {m : List (String × WorkspaceData)} {k : String}
    (v : WorkspaceData) (h : m.any (fun p => p.1 == k) = true) :
    (m.map (fun p => if p.1 = k then (k, v) else p)).lookup k = some v := by
  induction m with
  | nil => simp at h
  | cons p t ih =>
    by_cases hpk : p.1 = k
    · rw [List.map_cons, if_pos hpk]
      simp [List.lookup]
    · have ht : t.any (fun p => p.1 == k) = true := by
        simpa [List.any_cons, hpk] using h
      rw [List.map_cons, if_neg hpk]
      have hkp : (k == p.1) = false := beq_false_of_ne (fun e => hpk e.symm)
      simp only [List.lookup, hkp]
      exact ih ht

theorem lookup_none_of_not_any {m : List (String × WorkspaceData)} {k : String}
    (h : m.any (fun p => p.1 == k) = false) : m.lookup k = none := by
  induction m with
  | nil => rfl
  | cons p t ih =>
    simp only [List.any_cons, Bool.or_eq_false_iff, beq_eq_false_iff_ne, ne_eq] at h
    have hkp : (k == p.1) = false := beq_false_of_ne (fun e => h.1 e.symm)
    simp only [List.lookup, hkp]
    exact ih (by simpa [List.any_eq_false, beq_eq_false_iff_ne] using h.2)

theorem lookup_append_right_of_none {m l : List (String × WorkspaceData)}
    {k : String} (h : m.lookup k = none) : (m ++ l).lookup k = l.lookup k := by
  induction m with
  | nil => rfl
  | cons p t ih =>
    by_cases hkp : k = p.1
    · simp [List.lookup, hkp] at h
    · simp only [List.cons_append, List.lookup, beq_false_of_ne hkp] at h ⊢
      exact ih h

theorem lookup_map_replace_ne {j k : String} (v : WorkspaceData)
    (m : List (String × WorkspaceData)) (h : j ≠ k) :
    (m.map (fun p => if p.1 = k then (k, v) else p)).lookup j = m.lookup j := by
  induction m with
  | nil => rfl
  | cons p t ih =>
    by_cases hpk : p.1 = k
    · rw [List.map_cons, if_pos hpk]
      have h1 : (j == k) = false := beq_false_of_ne h
      have h2 : (j == p.1) = false := by rw [hpk]; exact h1
      simp only [List.lookup, h1, h2, ih]
    · rw [List.map_cons, if_neg hpk]
      by_cases hjp : j = p.1
      · simp [List.lookup, hjp]
      · simp only [List.lookup, beq_false_of_ne hjp, ih]

theorem lookup_append_single_ne {j k : String} (v : WorkspaceData)
    (m : List (String × WorkspaceData)) (h : j ≠ k) :
    (m ++ [(k, v)]).lookup j = m.lookup j := by
  induction m with
  | nil => simp [List.lookup, beq_false_of_ne h]
  | cons p t ih =>
    by_cases hjp : j = p.1
    · simp [List.lookup, hjp]
    · simp only [List.cons_append, List.lookup, beq_false_of_ne hjp]
      simpa using ih

/-- Writing key `k` makes `k` resolve to the written value. -/
theorem lookup_setKey_self (m : List (String × WorkspaceData)) (k : String)
    (v : WorkspaceData) : (setKey m k v).lookup k = some v := by
  unfold setKey
  split
  · exact lookup_replace_of_mem v (by assumption)
  · rename_i h
    have hnone : m.lookup k = none :=
      lookup_none_of_not_any (Bool.eq_false_iff.mpr (by simpa using h))
    rw [lookup_append_right_of_none hnone]
    simp [List.lookup]

/-- Writing key `k` leaves every other key's resolution unchanged. -/
theorem lookup_setKey_ne (m : List (String × WorkspaceData)) {j k : String}
    (v : WorkspaceData) (h : j ≠ k) : (setKey m k v).lookup j = m.lookup j := by
  unfold setKey
  split
  · exact lookup_map_replace_ne v m h
  · exact lookup_append_single_ne v m h

/-- Deleting key `k` makes `k` unresolvable. -/
theorem lookup_delKey_self (m : List (String × WorkspaceData)) (k : String) :
    (delKey m k).lookup k = none := by
  induction m with
  | nil => rfl
  | cons p t ih =>
    by_cases hpk : p.1 = k
    · simpa [delKey, List.filter_cons, hpk] using ih
    · have hkp : (k == p.1) = false := beq_false_of_ne (fun e => hpk e.symm)
      simpa [delKey, List.filter_cons, hpk, List.lookup, hkp] using ih

/-- Deleting key `k` leaves every other key's resolution unchanged. -/
theorem lookup_delKey_ne (m : List (String × WorkspaceData)) {j k : String}
    (h : j ≠ k) : (delKey m k).lookup j = m.lookup j := by
  induction m with
  | nil => rfl
  | cons p t ih =>
    by_cases hpk : p.1 = k
    · have h2 : (j == p.1) = false := by
        rw [hpk]; exact beq_false_of_ne h
      simpa [delKey, List.filter_cons, hpk, List.lookup, h2,
        beq_false_of_ne h] using ih
    · by_cases hjp : j = p.1
      · simp [delKey, List.filter_cons, hpk, List.lookup, hjp]
      · simpa [delKey, List.filter_cons, hpk, List.lookup,
          beq_false_of_ne hjp] using ih

/-!
## Claim theorems
-/

/-- C1: in every `load(name, restoreFolderState := true)` on a workspace
whose record contains a folder-expansion snapshot, the write of that
snapshot to the external folder-state store is the completed trace event
immediately preceding the layout-apply call: the layout-apply begins only
after the folder-state write has completed (trace events are completed
awaited calls, in program order). -/
theorem load_folder_write_before_apply
    (s : WorkspacesStorage) (name : String) (ws : WorkspaceData)
    (fs : List String) (applyLayoutFails : Bool)
    (hws : getWorkspace s name = some ws)
    (hfs : ws.folderExpandState = some fs) :
    ∃ rest, (loadWorkspace s name true applyLayoutFails).events =
      ExtEvent.writeFolderState (some fs) :: ExtEvent.applyLayout ws.layout :: rest := by
  unfold loadWorkspace
  rw [hws]
  refine ⟨(if applyLayoutFails = true then [ExtEvent.warnLayoutError] else []) ++
      [ExtEvent.triggerOpen name], ?_⟩
  simp [hfs]

/-- Witness for C1 at a concrete store. -/
theorem load_folder_write_before_apply_witness :
    ∃ rest,
      (loadWorkspace
          ⟨[("W", ⟨1, 5, some ["F"]⟩)], none, "2.0.0"⟩ "W" true false).events =
        ExtEvent.writeFolderState (some ["F"]) ::
          ExtEvent.applyLayout (WorkspaceData.mk 1 5 (some ["F"])).layout :: rest :=
  load_folder_write_before_apply _ "W" ⟨1, 5, some ["F"]⟩ ["F"] false
    (by decide) (by decide)

/-- C2: when the external layout-apply call raises during `load` of an
existing workspace, the error is logged (`warnLayoutError`) and swallowed:
`load` still sets `activeWorkspace` to the name, still emits the
"workspace opened" notification, and still returns success to its caller
instead of propagating the exception. -/
theorem load_swallows_apply_error
    (s : WorkspacesStorage) (name : String) (ws : WorkspaceData)
    (restoreFolderState : Bool)
    (hws : getWorkspace s name = some ws) :
    (loadWorkspace s name restoreFolderState true).result = .ok ∧
    (loadWorkspace s name restoreFolderState true).storage.activeWorkspace = some name ∧
    ExtEvent.triggerOpen name ∈ (loadWorkspace s name restoreFolderState true).events ∧
    ExtEvent.warnLayoutError ∈ (loadWorkspace s name restoreFolderState true).events := by
  unfold loadWorkspace
  rw [hws]
  refine ⟨rfl, rfl, by simp, by simp⟩

/-- Witness for C2 at a concrete store. -/
theorem load_swallows_apply_error_witness :
    (loadWorkspace ⟨[("W", ⟨3, 5, none⟩)], none, "2.0.0"⟩ "W" false true).result = .ok ∧
    (loadWorkspace ⟨[("W", ⟨3, 5, none⟩)], none, "2.0.0"⟩ "W" false true).storage.activeWorkspace = some "W" ∧
    ExtEvent.triggerOpen "W" ∈ (loadWorkspace ⟨[("W", ⟨3, 5, none⟩)], none, "2.0.0"⟩ "W" false true).events ∧
    ExtEvent.warnLayoutError ∈ (loadWorkspace ⟨[("W", ⟨3, 5, none⟩)], none, "2.0.0"⟩ "W" false true).events :=
  load_swallows_apply_error _ "W" ⟨3, 5, none⟩ false (by decide)

/-- C3: `load(name, restoreFolderState := true)` on a workspace whose
record has no folder-expansion snapshot explicitly clears the external
folder-state store (a `null` write, before the layout-apply) instead of
leaving the previous workspace's state there, and reports no error notice
for it; the load still completes successfully. -/
theorem load_clears_missing_folder_state
    (s : WorkspacesStorage) (name : String) (ws : WorkspaceData)
    (applyLayoutFails : Bool)
    (hws : getWorkspace s name = some ws)
    (hnofs : ws.folderExpandState = none) :
    (∃ rest, (loadWorkspace s name true applyLayoutFails).events =
        ExtEvent.writeFolderState none :: ExtEvent.applyLayout ws.layout :: rest) ∧
    (∀ e ∈ (loadWorkspace s name true applyLayoutFails).events, e.isNotice = false) ∧
    (loadWorkspace s name true applyLayoutFails).result = .ok := by
  unfold loadWorkspace
  rw [hws]
  refine ⟨⟨(if applyLayoutFails = true then [ExtEvent.warnLayoutError] else []) ++
      [ExtEvent.triggerOpen name], by simp [hnofs]⟩, ?_, rfl⟩
  cases applyLayoutFails with
  | false =>
    intro e he
    simp [hnofs] at he
    rcases he with rfl | rfl | rfl <;> rfl
  | true =>
    intro e he
    simp [hnofs] at he
    rcases he with rfl | rfl | rfl | rfl <;> rfl

/-- Witness for C3 at a concrete store. -/
theorem load_clears_missing_folder_state_witness :
    (∃ rest, (loadWorkspace ⟨[("W", ⟨3, 5, none⟩)], none, "2.0.0"⟩ "W" true false).events =
        ExtEvent.writeFolderState none ::
          ExtEvent.applyLayout (WorkspaceData.mk 3 5 none).layout :: rest) ∧
    (∀ e ∈ (loadWorkspace ⟨[("W", ⟨3, 5, none⟩)], none, "2.0.0"⟩ "W" true false).events,
        e.isNotice = false) ∧
    (loadWorkspace ⟨[("W", ⟨3, 5, none⟩)], none, "2.0.0"⟩ "W" true false).result = .ok :=
  load_clears_missing_folder_state _ "W" ⟨3, 5, none⟩ false (by decide) (by decide)

/-- C4: `rename(oldName, newName)` is atomic.  On success (`oldName`
present, `newName` absent and non-blank) the store afterwards has no
record under `oldName`, the pre-rename record under `newName`, every other
key unchanged, and the active pointer moved to `newName` exactly when it
was `oldName`.  On any failure (`oldName` absent, `newName` present, or
`newName` blank) the store — active pointer included — is exactly as
before and an error notice is reported. -/
theorem rename_atomic (s : WorkspacesStorage) (oldName newName : String) :
    (∀ r : WorkspaceData, lookupWs s oldName = some r →
      lookupWs s newName = none → jsTrim newName ≠ "" →
      hasWorkspace (renameWorkspace s oldName newName).1 oldName = false ∧
      lookupWs (renameWorkspace s oldName newName).1 newName = some r ∧
      (renameWorkspace s oldName newName).1.activeWorkspace =
        (if s.activeWorkspace = some oldName then some newName
         else s.activeWorkspace) ∧
      (∀ m, m ≠ oldName → m ≠ newName →
        lookupWs (renameWorkspace s oldName newName).1 m = lookupWs s m)) ∧
    ((lookupWs s oldName = none ∨ lookupWs s newName ≠ none ∨
        jsTrim newName = "") →
      (renameWorkspace s oldName newName).1 = s ∧
      ∃ e ∈ (renameWorkspace s oldName newName).2, e.isNotice = true) := by
  constructor
  · intro r hold hnew hblank
    have hne : oldName ≠ newName := by
      intro e
      rw [e, hnew] at hold
      exact Option.noConfusion hold
    have hhasNew : hasWorkspace s newName = false := by
      simp [hasWorkspace, hnew]
    have hbeq : (jsTrim newName == "") = false := beq_false_of_ne hblank
    simp only [renameWorkspace, hold, hhasNew, hbeq, Bool.false_eq_true,
      if_false]
    refine ⟨?_, ?_, trivial, ?_⟩
    · simp [hasWorkspace, lookupWs, lookup_delKey_self]
    · show (delKey (setKey s.workspaces newName r) oldName).lookup newName = some r
      rw [lookup_delKey_ne _ (Ne.symm hne), lookup_setKey_self]
    · intro m hmo hmn
      show (delKey (setKey s.workspaces newName r) oldName).lookup m =
        s.workspaces.lookup m
      rw [lookup_delKey_ne _ hmo, lookup_setKey_ne _ _ hmn]
  · intro hfail
    rcases hfail with h | h | h
    · have heq : renameWorkspace s oldName newName =
          (s, [ExtEvent.noticeNotFound oldName]) := by
        simp only [renameWorkspace, h]
      rw [heq]
      exact ⟨rfl, ExtEvent.noticeNotFound oldName, by simp, rfl⟩
    · cases hold : lookupWs s oldName with
      | none =>
        have heq : renameWorkspace s oldName newName =
            (s, [ExtEvent.noticeNotFound oldName]) := by
          simp only [renameWorkspace, hold]
        rw [heq]
        exact ⟨rfl, ExtEvent.noticeNotFound oldName, by simp, rfl⟩
      | some r =>
        have hhas : hasWorkspace s newName = true := by
          simpa [hasWorkspace, Option.isSome_iff_ne_none] using h
        have heq : renameWorkspace s oldName newName =
            (s, [ExtEvent.noticeAlreadyExists newName]) := by
          simp only [renameWorkspace, hold, hhas, if_true]
        rw [heq]
        exact ⟨rfl, ExtEvent.noticeAlreadyExists newName, by simp, rfl⟩
    · cases hold : lookupWs s oldName with
      | none =>
        have heq : renameWorkspace s oldName newName =
            (s, [ExtEvent.noticeNotFound oldName]) := by
          simp only [renameWorkspace, hold]
        rw [heq]
        exact ⟨rfl, ExtEvent.noticeNotFound oldName, by simp, rfl⟩
      | some r =>
        cases hhas : hasWorkspace s newName with
        | true =>
          have heq : renameWorkspace s oldName newName =
              (s, [ExtEvent.noticeAlreadyExists newName]) := by
            simp only [renameWorkspace, hold, hhas, if_true]
          rw [heq]
          exact ⟨rfl, ExtEvent.noticeAlreadyExists newName, by simp, rfl⟩
        | false =>
          have hbeq : (jsTrim newName == "") = true := by
            simp [h]
          have heq : renameWorkspace s oldName newName =
              (s, [ExtEvent.noticeEmptyName]) := by
            simp only [renameWorkspace, hold, hhas, hbeq, Bool.false_eq_true,
              if_false, if_true]
          rw [heq]
          exact ⟨rfl, ExtEvent.noticeEmptyName, by simp, rfl⟩

/-- Witness for C4: both the success and the failure branch at concrete
stores. -/
theorem rename_atomic_witness :
    (hasWorkspace (renameWorkspace ⟨[("A", ⟨1, 2, none⟩)], some "A", "2.0.0"⟩ "A" "B").1 "A" = false ∧
     lookupWs (renameWorkspace ⟨[("A", ⟨1, 2, none⟩)], some "A", "2.0.0"⟩ "A" "B").1 "B" = some ⟨1, 2, none⟩ ∧
     (renameWorkspace ⟨[("A", ⟨1, 2, none⟩)], some "A", "2.0.0"⟩ "A" "B").1.activeWorkspace =
       (if (WorkspacesStorage.mk [("A", ⟨1, 2, none⟩)] (some "A") "2.0.0").activeWorkspace = some "A"
        then some "B"
        else (WorkspacesStorage.mk [("A", ⟨1, 2, none⟩)] (some "A") "2.0.0").activeWorkspace) ∧
     (∀ m, m ≠ "A" → m ≠ "B" →
       lookupWs (renameWorkspace ⟨[("A", ⟨1, 2, none⟩)], some "A", "2.0.0"⟩ "A" "B").1 m =
         lookupWs ⟨[("A", ⟨1, 2, none⟩)], some "A", "2.0.0"⟩ m)) ∧
    ((renameWorkspace ⟨[("A", ⟨1, 2, none⟩)], some "A", "2.0.0"⟩ "Ghost" "X").1 =
        ⟨[("A", ⟨1, 2, none⟩)], some "A", "2.0.0"⟩ ∧
     ∃ e ∈ (renameWorkspace ⟨[("A", ⟨1, 2, none⟩)], some "A", "2.0.0"⟩ "Ghost" "X").2,
       e.isNotice = true) :=
  ⟨(rename_atomic ⟨[("A", ⟨1, 2, none⟩)], some "A", "2.0.0"⟩ "A" "B").1
      ⟨1, 2, none⟩ (by decide) (by decide) (by decide),
   (rename_atomic ⟨[("A", ⟨1, 2, none⟩)], some "A", "2.0.0"⟩ "Ghost" "X").2
      (Or.inl (by decide))⟩

/-- C8: `delete(name)` removes the record; if `name` was active, the
active pointer is cleared to `none` (never left dangling, no other
workspace auto-selected); other records are untouched.  If `name` has no
record, a "not found" notice is reported and the store — active pointer
included — is unchanged. -/
theorem delete_clears_active (s : WorkspacesStorage) (name : String) :
    (hasWorkspace s name = true →
      lookupWs (deleteWorkspace s name).1 name = none ∧
      (s.activeWorkspace = some name →
        (deleteWorkspace s name).1.activeWorkspace = none) ∧
      (s.activeWorkspace ≠ some name →
        (deleteWorkspace s name).1.activeWorkspace = s.activeWorkspace) ∧
      (∀ m, m ≠ name →
        lookupWs (deleteWorkspace s name).1 m = lookupWs s m)) ∧
    (hasWorkspace s name = false →
      (deleteWorkspace s name).1 = s ∧
      ExtEvent.noticeNotFound name ∈ (deleteWorkspace s name).2) := by
  constructor
  · intro h
    simp only [deleteWorkspace, h, Bool.not_true, Bool.false_eq_true, if_false]
    refine ⟨?_, ?_, ?_, ?_⟩
    · simp [lookupWs, lookup_delKey_self]
    · intro ha
      simp [ha]
    · intro ha
      simp only [if_neg ha]
    · intro m hm
      show (delKey s.workspaces name).lookup m = s.workspaces.lookup m
      rw [lookup_delKey_ne _ hm]
  · intro h
    simp [deleteWorkspace, h]

/-- Witness for C8: both branches at concrete stores. -/
theorem delete_clears_active_witness :
    (lookupWs (deleteWorkspace ⟨[("A", ⟨1, 2, none⟩)], some "A", "2.0.0"⟩ "A").1 "A" = none ∧
     ((WorkspacesStorage.mk [("A", ⟨1, 2, none⟩)] (some "A") "2.0.0").activeWorkspace = some "A" →
       (deleteWorkspace ⟨[("A", ⟨1, 2, none⟩)], some "A", "2.0.0"⟩ "A").1.activeWorkspace = none) ∧
     ((WorkspacesStorage.mk [("A", ⟨1, 2, none⟩)] (some "A") "2.0.0").activeWorkspace ≠ some "A" →
       (deleteWorkspace ⟨[("A", ⟨1, 2, none⟩)], some "A", "2.0.0"⟩ "A").1.activeWorkspace =
         (WorkspacesStorage.mk [("A", ⟨1, 2, none⟩)] (some "A") "2.0.0").activeWorkspace) ∧
     (∀ m, m ≠ "A" →
       lookupWs (deleteWorkspace ⟨[("A", ⟨1, 2, none⟩)], some "A", "2.0.0"⟩ "A").1 m =
         lookupWs ⟨[("A", ⟨1, 2, none⟩)], some "A", "2.0.0"⟩ m)) ∧
    ((deleteWorkspace ⟨[("A", ⟨1, 2, none⟩)], some "A", "2.0.0"⟩ "Ghost").1 =
        ⟨[("A", ⟨1, 2, none⟩)], some "A", "2.0.0"⟩ ∧
     ExtEvent.noticeNotFound "Ghost" ∈
       (deleteWorkspace ⟨[("A", ⟨1, 2, none⟩)], some "A", "2.0.0"⟩ "Ghost").2) :=
  ⟨(delete_clears_active ⟨[("A", ⟨1, 2, none⟩)], some "A", "2.0.0"⟩ "A").1 (by decide),
   (delete_clears_active ⟨[("A", ⟨1, 2, none⟩)], some "A", "2.0.0"⟩ "Ghost").2 (by decide)⟩

theorem activeValid_iff (s : WorkspacesStorage) :
    activeValid s = true ↔
      ∀ n, s.activeWorkspace = some n → hasWorkspace s n = true := by
  cases h : s.activeWorkspace with
  | none => simp [activeValid, h]
  | some m => simp [activeValid, h]

/-- C10 (implicit): every manager operation preserves the invariant that
`activeWorkspace` is `none` or the key of an existing record; in
particular `setActiveWorkspace` on a recordless name leaves the pointer
unchanged rather than dangling. -/
theorem ops_preserve_activeValid (s : WorkspacesStorage)
    (hs : activeValid s = true)
    (name oldName newName : String) (saveFolderState : Bool) (env : SaveEnv)
    (restoreFolderState applyLayoutFails : Bool) :
    activeValid (saveWorkspace s name saveFolderState env).1 = true ∧
    activeValid (loadWorkspace s name restoreFolderState applyLayoutFails).storage = true ∧
    activeValid (deleteWorkspace s name).1 = true ∧
    activeValid (renameWorkspace s oldName newName).1 = true ∧
    activeValid (setActiveWorkspace s name) = true ∧
    (lookupWs s name = none → setActiveWorkspace s name = s) := by
  refine ⟨?_, ?_, ?_, ?_, ?_, ?_⟩
  · -- saveWorkspace
    unfold saveWorkspace
    split
    · exact hs
    · simp [activeValid, hasWorkspace, lookupWs, lookup_setKey_self]
  · -- loadWorkspace
    unfold loadWorkspace
    cases hld : getWorkspace s name with
    | none => exact hs
    | some ws =>
      have hlk : List.lookup name s.workspaces = some ws := hld
      simp only [activeValid, hasWorkspace, lookupWs, hlk, Option.isSome_some]
  · -- deleteWorkspace
    unfold deleteWorkspace
    split
    · exact hs
    · cases ha : s.activeWorkspace with
      | none => simp [activeValid, ha]
      | some m =>
        by_cases hm : m = name
        · subst hm
          simp [activeValid, ha]
        · have hsm : hasWorkspace s m = true := (activeValid_iff s).mp hs m ha
          have hdel : (delKey s.workspaces name).lookup m =
              s.workspaces.lookup m := lookup_delKey_ne _ hm
          simp only [activeValid, ha, Option.some.injEq]
          rw [if_neg (by simpa using hm)]
          simpa [hasWorkspace, lookupWs, hdel] using hsm
  · -- renameWorkspace
    cases hold : lookupWs s oldName with
    | none =>
      have heq : renameWorkspace s oldName newName =
          (s, [ExtEvent.noticeNotFound oldName]) := by
        simp only [renameWorkspace, hold]
      rw [heq]
      exact hs
    | some r =>
      cases hhas : hasWorkspace s newName with
      | true =>
        have heq : renameWorkspace s oldName newName =
            (s, [ExtEvent.noticeAlreadyExists newName]) := by
          simp only [renameWorkspace, hold, hhas, if_true]
        rw [heq]
        exact hs
      | false =>
        have hnew : lookupWs s newName = none := by
          simpa [hasWorkspace, Option.isSome_iff_ne_none] using hhas
        have hne : oldName ≠ newName := by
          intro e
          rw [e, hnew] at hold
          exact Option.noConfusion hold
        by_cases hbl : jsTrim newName = ""
        · have heq : renameWorkspace s oldName newName =
              (s, [ExtEvent.noticeEmptyName]) := by
            simp only [renameWorkspace, hold, hhas, Bool.false_eq_true, if_false,
              beq_iff_eq, if_pos hbl]
          rw [heq]
          exact hs
        · have heq : renameWorkspace s oldName newName =
              ({ s with
                  workspaces := delKey (setKey s.workspaces newName r) oldName
                  activeWorkspace :=
                    if s.activeWorkspace = some oldName then some newName
                    else s.activeWorkspace },
               [ExtEvent.triggerRename newName oldName]) := by
            simp only [renameWorkspace, hold, hhas, Bool.false_eq_true, if_false,
              beq_iff_eq, if_neg hbl]
          rw [heq]
          cases ha : s.activeWorkspace with
          | none => simp [activeValid, ha]
          | some m =>
            by_cases hm : m = oldName
            · subst hm
              have hlk : (delKey (setKey s.workspaces newName r) m).lookup newName
                  = some r := by
                rw [lookup_delKey_ne _ (Ne.symm hne), lookup_setKey_self]
              simp only [activeValid, ha, if_true, eq_self_iff_true,
                hasWorkspace, lookupWs, hlk, Option.isSome_some]
            · have hsm : hasWorkspace s m = true := (activeValid_iff s).mp hs m ha
              have hmnew : m ≠ newName := by
                intro e
                rw [e] at hsm
                simp [hasWorkspace, hnew] at hsm
              have hlk : (delKey (setKey s.workspaces newName r) oldName).lookup m
                  = s.workspaces.lookup m := by
                rw [lookup_delKey_ne _ hm, lookup_setKey_ne _ _ hmnew]
              simp only [activeValid, ha]
              rw [if_neg (by simpa using hm)]
              simp only [hasWorkspace, lookupWs, hlk]
              simpa only [hasWorkspace, lookupWs] using hsm
  · -- setActiveWorkspace
    unfold setActiveWorkspace
    split
    · rename_i h
      simpa [activeValid, hasWorkspace] using h
    · exact hs
  · -- setActiveWorkspace on a recordless name is the identity
    intro h
    have : hasWorkspace s name = false := by simp [hasWorkspace, h]
    simp [setActiveWorkspace, this]

/-- Witness for C10 at a concrete store. -/
theorem ops_preserve_activeValid_witness :
    activeValid (saveWorkspace ⟨[("A", ⟨1, 2, none⟩)], some "A", "2.0.0"⟩ "A" false
        ⟨0, 0, none, false, []⟩).1 = true ∧
    activeValid (loadWorkspace ⟨[("A", ⟨1, 2, none⟩)], some "A", "2.0.0"⟩ "A" false false).storage = true ∧
    activeValid (deleteWorkspace ⟨[("A", ⟨1, 2, none⟩)], some "A", "2.0.0"⟩ "A").1 = true ∧
    activeValid (renameWorkspace ⟨[("A", ⟨1, 2, none⟩)], some "A", "2.0.0"⟩ "A" "B").1 = true ∧
    activeValid (setActiveWorkspace ⟨[("A", ⟨1, 2, none⟩)], some "A", "2.0.0"⟩ "A") = true ∧
    (lookupWs ⟨[("A", ⟨1, 2, none⟩)], some "A", "2.0.0"⟩ "A" = none →
      setActiveWorkspace ⟨[("A", ⟨1, 2, none⟩)], some "A", "2.0.0"⟩ "A" =
        ⟨[("A", ⟨1, 2, none⟩)], some "A", "2.0.0"⟩) :=
  ops_preserve_activeValid ⟨[("A", ⟨1, 2, none⟩)], some "A", "2.0.0"⟩ (by decide)
    "A" "A" "B" false ⟨0, 0, none, false, []⟩ false false

/-- C5: the Natural Name Comparator is deterministic and a total order
consistent with equality — antisymmetric in the comparator sense
(swapping arguments swaps the ordering), equal names compare equal, and
strictly transitive; digit runs compare numerically ("Workspace 2" sorts
before "Workspace 10"), and creating "Notes 2", "Notes 10", "Notes 1" in
that order then listing with alphabetical sort enabled yields
["Notes 1", "Notes 2", "Notes 10"]. -/
theorem naturalCompare_total_order :
    (∀ a b : String, (naturalCompare a b).swap = naturalCompare b a) ∧
    (∀ a b : String, a = b → naturalCompare a b = .eq) ∧
    (∀ a b c : String, naturalCompare a b = .lt → naturalCompare b c = .lt →
      naturalCompare a c = .lt) ∧
    naturalCompare "Workspace 2" "Workspace 10" = .lt ∧
    getItems true
      (saveWorkspace
        (saveWorkspace
          (saveWorkspace ⟨[], none, "2.0.0"⟩ "Notes 2" false ⟨0, 0, none, false, []⟩).1
          "Notes 10" false ⟨0, 0, none, false, []⟩).1
        "Notes 1" false ⟨0, 0, none, false, []⟩).1 =
      ["Notes 1", "Notes 2", "Notes 10"] :=
  ⟨fun a b => Batteries.OrientedCmp.symm a b,
   fun _ _ h => h ▸ Batteries.OrientedCmp.cmp_refl,
   fun _ _ _ h1 h2 => Batteries.TransCmp.lt_trans h1 h2,
   by decide,
   by decide⟩

/-- Witness for C5: the transitivity component applied at concrete names,
its premises discharged by evaluation. -/
theorem naturalCompare_total_order_witness :
    naturalCompare "Notes 1" "Notes 10" = .lt :=
  naturalCompare_total_order.2.2.1 "Notes 1" "Notes 2" "Notes 10"
    (by decide) (by decide)

/-- C6: for every store and either setting of the alphabetical-sorting
flag, `getItems` returns exactly the stored names — a permutation of the
keys, sorted by the natural comparator when the flag is on, and the keys
in insertion order when it is off.  (`getItems` is a pure read by
construction: its type returns only the name list and no store.) -/
theorem getItems_ordered (sortWorkspacesAlphabetically : Bool)
    (s : WorkspacesStorage) :
    (getItems sortWorkspacesAlphabetically s).Perm
      (s.workspaces.map (fun p => p.1)) ∧
    (sortWorkspacesAlphabetically = true →
      List.Sorted wsLE (getItems sortWorkspacesAlphabetically s)) ∧
    (sortWorkspacesAlphabetically = false →
      getItems sortWorkspacesAlphabetically s =
        s.workspaces.map (fun p => p.1)) := by
  cases sortWorkspacesAlphabetically with
  | false =>
    refine ⟨?_, ?_, ?_⟩
    · simp only [getItems, Bool.false_eq_true, if_false]
      exact List.Perm.refl _
    · intro h
      exact absurd h (by simp)
    · intro _
      simp only [getItems, Bool.false_eq_true, if_false]
  | true =>
    refine ⟨?_, ?_, ?_⟩
    · simp only [getItems, if_true]
      exact List.perm_insertionSort wsLE _
    · intro _
      simp only [getItems, if_true]
      exact List.sorted_insertionSort wsLE _
    · intro h
      exact absurd h (by simp)

/-- Witness for C6: the sortedness component at a concrete store. -/
theorem getItems_ordered_witness :
    List.Sorted wsLE
      (getItems true ⟨[("Notes 2", ⟨0, 0, none⟩), ("Notes 10", ⟨0, 0, none⟩),
        ("Notes 1", ⟨0, 0, none⟩)], none, "2.0.0"⟩) :=
  (getItems_ordered true ⟨[("Notes 2", ⟨0, 0, none⟩), ("Notes 10", ⟨0, 0, none⟩),
    ("Notes 1", ⟨0, 0, none⟩)], none, "2.0.0"⟩).2.1 rfl

/-- C7 counterexample: saving an existing workspace with navigation memory
disabled does NOT leave the record's previously recorded folder-expansion
state unchanged — the record is overwritten wholesale and the stored
snapshot (`some ["Folder"]`) is replaced by `none`. -/
theorem save_nav_disabled_changes_folder_state :
    (lookupWs (saveCurrentWorkspaceCmd
        { DEFAULT_SETTINGS with rememberNavigationLayout := false }
        [] ⟨[("A", ⟨1, 10, some ["Folder"]⟩)], some "A", "2.0.0"⟩ "A"
        ⟨true, false, none, none, none, none⟩
        ⟨2, 20, some ["Other"], true, []⟩).2.1 "A").map
      (fun d => d.folderExpandState) ≠
    (lookupWs ⟨[("A", ⟨1, 10, some ["Folder"]⟩)], some "A", "2.0.0"⟩ "A").map
      (fun d => d.folderExpandState) := by
  decide

/-- C7 (amended): a save of an existing workspace with navigation memory
disabled fully overwrites the record's `layout` and `lastSaved`; the
sidebar navigation-state entry (`navigationLayouts`) is left unchanged —
it is overwritten only when navigation memory is enabled — but the
record's folder-expansion snapshot is not preserved: the record is
replaced wholesale, so `folderExpandState` is overwritten to absent.
Other records are untouched and the workspace becomes active. -/
theorem save_nav_disabled_overwrite (settings : WorkspaceNavigatorSettings)
    (nav : List (String × NavigationLayoutState)) (s : WorkspacesStorage)
    (name : String) (current : NavigationLayoutState) (env : SaveEnv)
    (hoff : settings.rememberNavigationLayout = false)
    (_hexists : hasWorkspace s name = true)
    (hblank : jsTrim name ≠ "") :
    lookupWs (saveCurrentWorkspaceCmd settings nav s name current env).2.1 name =
      some ⟨env.currentLayout, env.now, none⟩ ∧
    (saveCurrentWorkspaceCmd settings nav s name current env).1 = nav ∧
    (∀ m, m ≠ name →
      lookupWs (saveCurrentWorkspaceCmd settings nav s name current env).2.1 m =
        lookupWs s m) ∧
    (saveCurrentWorkspaceCmd settings nav s name current env).2.1.activeWorkspace =
      some name := by
  have hbeq : (jsTrim name == "") = false := beq_false_of_ne hblank
  simp only [saveCurrentWorkspaceCmd, saveNavigationLayout, saveWorkspace,
    capturedFolderState, hoff, Bool.not_false, if_true, hbeq,
    Bool.false_eq_true, if_false]
  refine ⟨?_, trivial, ?_, trivial⟩
  · exact lookup_setKey_self s.workspaces name _
  · intro m hm
    exact lookup_setKey_ne s.workspaces _ hm

/-- Witness for the amended C7 at a concrete store. -/
theorem save_nav_disabled_overwrite_witness :
    lookupWs (saveCurrentWorkspaceCmd
        { DEFAULT_SETTINGS with rememberNavigationLayout := false }
        [("A", ⟨true, false, none, none, none, none⟩)]
        ⟨[("A", ⟨1, 10, some ["Folder"]⟩)], some "A", "2.0.0"⟩ "A"
        ⟨false, true, none, none, none, none⟩
        ⟨2, 20, some ["Other"], true, []⟩).2.1 "A" =
      some ⟨(SaveEnv.mk 2 20 (some ["Other"]) true []).currentLayout,
        (SaveEnv.mk 2 20 (some ["Other"]) true []).now, none⟩ ∧
    (saveCurrentWorkspaceCmd
        { DEFAULT_SETTINGS with rememberNavigationLayout := false }
        [("A", ⟨true, false, none, none, none, none⟩)]
        ⟨[("A", ⟨1, 10, some ["Folder"]⟩)], some "A", "2.0.0"⟩ "A"
        ⟨false, true, none, none, none, none⟩
        ⟨2, 20, some ["Other"], true, []⟩).1 =
      [("A", ⟨true, false, none, none, none, none⟩)] ∧
    (∀ m, m ≠ "A" →
      lookupWs (saveCurrentWorkspaceCmd
          { DEFAULT_SETTINGS with rememberNavigationLayout := false }
          [("A", ⟨true, false, none, none, none, none⟩)]
          ⟨[("A", ⟨1, 10, some ["Folder"]⟩)], some "A", "2.0.0"⟩ "A"
          ⟨false, true, none, none, none, none⟩
          ⟨2, 20, some ["Other"], true, []⟩).2.1 m =
        lookupWs ⟨[("A", ⟨1, 10, some ["Folder"]⟩)], some "A", "2.0.0"⟩ m) ∧
    (saveCurrentWorkspaceCmd
        { DEFAULT_SETTINGS with rememberNavigationLayout := false }
        [("A", ⟨true, false, none, none, none, none⟩)]
        ⟨[("A", ⟨1, 10, some ["Folder"]⟩)], some "A", "2.0.0"⟩ "A"
        ⟨false, true, none, none, none, none⟩
        ⟨2, 20, some ["Other"], true, []⟩).2.1.activeWorkspace = some "A" :=
  save_nav_disabled_overwrite
    { DEFAULT_SETTINGS with rememberNavigationLayout := false }
    [("A", ⟨true, false, none, none, none, none⟩)]
    ⟨[("A", ⟨1, 10, some ["Folder"]⟩)], some "A", "2.0.0"⟩ "A"
    ⟨false, true, none, none, none, none⟩
    ⟨2, 20, some ["Other"], true, []⟩ rfl (by decide) (by decide)

theorem restorePanel_twice (targetOpen : Bool) (e c : PanelAction)
    (sp : Option Bool) :
    restorePanel targetOpen e c (restorePanel targetOpen e c sp).1 =
      ((restorePanel targetOpen e c sp).1, []) := by
  cases sp with
  | none => rfl
  | some b => cases targetOpen <;> cases b <;> rfl

theorem restorePanel_inTarget (targetOpen : Bool) (e c : PanelAction) (b : Bool)
    (h : b = !targetOpen) :
    restorePanel targetOpen e c (some b) = (some b, []) := by
  subst h
  cases targetOpen <;> rfl

theorem restorePanel_actions (targetOpen : Bool) (e c : PanelAction)
    (sp : Option Bool) :
    ∀ a ∈ (restorePanel targetOpen e c sp).2, a = e ∨ a = c := by
  cases sp with
  | none =>
    intro a ha
    simp [restorePanel] at ha
  | some b => cases targetOpen <;> cases b <;> simp [restorePanel]

/-- C9: the navigation-layout restore is idempotent — running it twice
with the same snapshot ends in the same panel state as running it once
(and the second run issues no expand/collapse calls at all), and a panel
already in the snapshot's target state is left untouched: its state is
unchanged and no action is issued against it. -/
theorem restore_nav_idempotent (settings : WorkspaceNavigatorSettings)
    (nav : List (String × NavigationLayoutState)) (name : String)
    (p : SplitPanels) :
    (restoreNavigationLayout settings nav name
        (restoreNavigationLayout settings nav name p).1).1 =
      (restoreNavigationLayout settings nav name p).1 ∧
    (restoreNavigationLayout settings nav name
        (restoreNavigationLayout settings nav name p).1).2 = [] ∧
    (∀ l, nav.lookup name = some l →
      (p.left = some (!l.leftSidebarOpen) →
        (restoreNavigationLayout settings nav name p).1.left = p.left ∧
        ∀ a ∈ (restoreNavigationLayout settings nav name p).2,
          a ≠ PanelAction.expandLeft ∧ a ≠ PanelAction.collapseLeft) ∧
      (p.right = some (!l.rightSidebarOpen) →
        (restoreNavigationLayout settings nav name p).1.right = p.right ∧
        ∀ a ∈ (restoreNavigationLayout settings nav name p).2,
          a ≠ PanelAction.expandRight ∧ a ≠ PanelAction.collapseRight)) := by
  by_cases hg : (!settings.rememberNavigationLayout ||
      settings.maintainLayoutAcrossWorkspaces) = true
  · have heq : ∀ q : SplitPanels,
        restoreNavigationLayout settings nav name q = (q, []) := by
      intro q
      simp only [restoreNavigationLayout, hg, if_true]
    refine ⟨by rw [heq, heq], by rw [heq, heq], ?_⟩
    intro l _
    refine ⟨fun _ => ⟨by rw [heq], ?_⟩, fun _ => ⟨by rw [heq], ?_⟩⟩ <;>
    · intro a ha
      rw [heq] at ha
      simp at ha
  · have hg' : (!settings.rememberNavigationLayout ||
        settings.maintainLayoutAcrossWorkspaces) = false := by
      simpa using hg
    cases hl : nav.lookup name with
    | none =>
      have heq : ∀ q : SplitPanels,
          restoreNavigationLayout settings nav name q = (q, []) := by
        intro q
        simp only [restoreNavigationLayout, hg', Bool.false_eq_true, if_false, hl]
      refine ⟨by rw [heq, heq], by rw [heq, heq], ?_⟩
      intro l hl'
      exact absurd hl' (by simp)
    | some layout =>
      have heq : ∀ q : SplitPanels,
          restoreNavigationLayout settings nav name q =
            ({ left := (restorePanel layout.leftSidebarOpen .expandLeft
                  .collapseLeft q.left).1
               right := (restorePanel layout.rightSidebarOpen .expandRight
                  .collapseRight q.right).1 },
             (restorePanel layout.leftSidebarOpen .expandLeft
                .collapseLeft q.left).2 ++
               (restorePanel layout.rightSidebarOpen .expandRight
                  .collapseRight q.right).2) := by
        intro q
        simp only [restoreNavigationLayout, hg', Bool.false_eq_true, if_false, hl]
      refine ⟨?_, ?_, ?_⟩
      · rw [heq, heq]
        simp only [restorePanel_twice]
      · rw [heq, heq]
        simp only [restorePanel_twice]
        rfl
      · intro l hl'
        obtain rfl : layout = l := Option.some.inj hl'
        constructor
        · intro hpl
          have hre : restorePanel layout.leftSidebarOpen .expandLeft
              .collapseLeft p.left = (p.left, []) := by
            rw [hpl]
            exact restorePanel_inTarget _ _ _ _ rfl
          refine ⟨by rw [heq]; simp only [hre], ?_⟩
          intro a ha
          rw [heq] at ha
          simp only [hre, List.nil_append] at ha
          rcases restorePanel_actions _ _ _ _ a ha with rfl | rfl
          · exact ⟨by decide, by decide⟩
          · exact ⟨by decide, by decide⟩
        · intro hpr
          have hre : restorePanel layout.rightSidebarOpen .expandRight
              .collapseRight p.right = (p.right, []) := by
            rw [hpr]
            exact restorePanel_inTarget _ _ _ _ rfl
          refine ⟨by rw [heq]; simp only [hre], ?_⟩
          intro a ha
          rw [heq] at ha
          simp only [hre, List.append_nil] at ha
          rcases restorePanel_actions _ _ _ _ a ha with rfl | rfl
          · exact ⟨by decide, by decide⟩
          · exact ⟨by decide, by decide⟩

/-- Witness for C9: a panel already in the snapshot's target state at a
concrete store is untouched. -/
theorem restore_nav_idempotent_witness :
    (restoreNavigationLayout DEFAULT_SETTINGS
        [("W", ⟨true, false, none, none, none, none⟩)] "W"
        ⟨some false, some true⟩).1.left =
      (⟨some false, some true⟩ : SplitPanels).left ∧
    ∀ a ∈ (restoreNavigationLayout DEFAULT_SETTINGS
        [("W", ⟨true, false, none, none, none, none⟩)] "W"
        ⟨some false, some true⟩).2,
      a ≠ PanelAction.expandLeft ∧ a ≠ PanelAction.collapseLeft :=
  ((restore_nav_idempotent DEFAULT_SETTINGS
      [("W", ⟨true, false, none, none, none, none⟩)] "W"
      ⟨some false, some true⟩).2.2 ⟨true, false, none, none, none, none⟩
      (by decide)).1 (by decide)
